import Mathlib

/-!
Verification development for the pygenstub stub generator
(single source file: pygenstub.py).

The Python source is shallowly embedded:

* Strings are Lean `String`s; all scanning helpers work on `String.data`
  (the list of characters), mirroring the Python code character by character.
* Exceptions (`ValueError` from tuple unpacking, `AssertionError`,
  `AttributeError`) are modelled by `Option`: `none` means the Python run
  dies with an unhandled exception.
* `sys.exit(1)` after printing the unresolved-name diagnostic is modelled by
  `Except.error` carrying the full list of unresolved names; `Except.ok` is
  the stub text that would be written.
* The docstring field extraction (`get_signature`, delegating to docutils)
  is an external collaborator: each embedded class / function declaration
  carries the `Option String` value that `get_signature` would return.
* `hasattr(typing, n)` probes the ambient typing module; the set of names
  available there is passed in as an explicit `typingNames : List String`.
* Python `set`s are modelled as duplicate-free `List String`s built by
  first-occurrence insertion; every place the Python code iterates a set it
  either sorts it first or only uses membership / emptiness, so the model
  order never influences a modelled output (the diagnostic carries the
  leftover list, standing for the reported set).
-/

namespace Pygenstub

/-! ## Character-level Python string primitives -/

/-- Python whitespace for `str.strip()`. -/
def isPySpace (c : Char) : Bool :=
  c = ' ' || c = '\t' || c = '\n' || c = '\r' || c = '\x0b' || c = '\x0c'

/-- Python `s.strip()`. -/
def pyStrip (s : String) : String :=
  (((s.data.dropWhile isPySpace).reverse.dropWhile isPySpace).reverse).asString

/-- Python `s.split(sep)` for a non-empty separator, on character lists.
The fuel argument starts at the length of the scanned list; every step
consumes one fuel unit and at least one character, so the zero-fuel arm is
never reached from `pySplit`. -/
def splitSepFuel (sep : List Char) : Nat → List Char → List Char → List (List Char)
  | _, [], acc => [acc.reverse]
  | 0, rest, acc => [acc.reverse ++ rest]
  | f + 1, c :: cs, acc =>
    if sep.isPrefixOf (c :: cs) then
      acc.reverse :: splitSepFuel sep f (cs.drop (sep.length - 1)) []
    else
      splitSepFuel sep f cs (c :: acc)

/-- Python `s.split(sep)` (non-empty `sep`): left-to-right, non-overlapping. -/
def pySplit (s sep : String) : List String :=
  (splitSepFuel sep.data s.data.length s.data []).map List.asString

/-- Python `sep.join(xs)`. -/
def pyJoin (sep : String) : List String → String
  | [] => ""
  | [x] => x
  | x :: xs => x ++ sep ++ pyJoin sep xs

/-- Python `s[1:-1]`: drop the first and the last character. -/
def dropFirstLast (s : String) : String :=
  ((s.data.drop 1).dropLast).asString

/-- Whether the string contains a dot, as in Python `'.' in n`. -/
def hasDot (s : String) : Bool :=
  s.data.any (fun c => c = '.')

/-- Python `s.splitlines(keepends=True)` for text whose only line boundary
is a newline character (the renderer below only ever emits a newline). -/
def splitLinesAux : List Char → List Char → List String
  | [], [] => []
  | [], acc => [acc.reverse.asString]
  | '\n' :: cs, acc => (('\n' :: acc).reverse.asString) :: splitLinesAux cs []
  | c :: cs, acc => splitLinesAux cs (c :: acc)

def splitLinesKeepEnds (s : String) : List String :=
  splitLinesAux s.data []

/-- The `textwrap.indent(body, pre)` used by the renderer: each line that
contains non-whitespace is prefixed with `pre`. -/
def pyIndent (body pre : String) : String :=
  String.join ((splitLinesKeepEnds body).map
    (fun line => if pyStrip line = "" then line else pre ++ line))

/-! ## Lexicographic string order (Python `sorted` on strings) -/

/-- Lexicographic comparison of character lists by code point. -/
def charListLe : List Char → List Char → Bool
  | [], _ => true
  | _ :: _, [] => false
  | a :: as, b :: bs =>
    if a < b then true else if b < a then false else charListLe as bs

/-- Python string comparison: lexicographic by code point. -/
def strLe (a b : String) : Bool :=
  charListLe a.data b.data

def strLeP (a b : String) : Prop := strLe a b = true

instance : DecidableRel strLeP := fun a b =>
  inferInstanceAs (Decidable (strLe a b = true))

/-- Python `sorted` on a list of strings (for sets the result does not
depend on iteration order, so insertion sort matches it exactly). -/
def sortStrings (l : List String) : List String :=
  List.insertionSort strLeP l

/-! ## Constants of the source -/

def BUILTIN_TYPES : List String :=
  ["int", "float", "bool", "str", "bytes", "unicode",
   "tuple", "list", "set", "dict", "None"]

def SIGNATURE_COMMENT : String := " # sig: "

def LINE_LENGTH_LIMIT : Nat := 79

def INDENT : String := "    "

def MULTILINE_STUB_INDENT : String := "        "

/-! ## RE_NAMES: finding the dotted-name tokens of a signature -/

def isWordChar (c : Char) : Bool :=
  c.isAlphanum || c = '_'

/-- All matches of the regular expression of word characters joined by
dots (the source's RE_NAMES) in a character list, left to right, greedy.
The accumulator holds the reversed current partial token. -/
def findNamesAux : List Char → List Char → List String
  | [], cur => if cur = [] then [] else [cur.reverse.asString]
  | '.' :: c :: cs, cur =>
    if cur ≠ [] ∧ isWordChar c then
      findNamesAux cs (c :: '.' :: cur)
    else
      (if cur = [] then [] else [cur.reverse.asString]) ++ findNamesAux (c :: cs) []
  | c :: cs, cur =>
    if isWordChar c then
      findNamesAux cs (c :: cur)
    else
      (if cur = [] then [] else [cur.reverse.asString]) ++ findNamesAux cs []

def findNames (s : String) : List String :=
  findNamesAux s.data []

/-! ## split_parameter_types -/

/-- Indices of the top-level commas: positions where the character is a
comma and the running bracket depth is zero (source lines 104-112). -/
def topCommasAux : List Char → Nat → Int → List Nat
  | [], _, _ => []
  | c :: cs, i, depth =>
    if c = ',' ∧ depth = 0 then i :: topCommasAux cs (i + 1) depth
    else if c = '[' then topCommasAux cs (i + 1) (depth + 1)
    else if c = ']' then topCommasAux cs (i + 1) (depth - 1)
    else topCommasAux cs (i + 1) depth

/-- The slicing loop of the source (lines 114-121): cut the full string at
the collected comma indices and strip each piece. -/
def segmentsAux (full : List Char) : List Nat → Nat → List String
  | [], last => [pyStrip ((full.drop last).asString)]
  | i :: rest, last =>
    pyStrip (((full.drop last).take (i - last)).asString) :: segmentsAux full rest (i + 1)

/-- Embedding of `split_parameter_types` (source lines 93-121). -/
def split_parameter_types (parameter_types : String) : List String :=
  if parameter_types = "" then []
  else segmentsAux parameter_types.data (topCommasAux parameter_types.data 0 0) 0

/-- Specification-side splitter, written from the spec's words: scan left
to right, keep a bracket depth, and cut exactly at the commas seen at
depth zero, so that bracket-nested commas are never split points. -/
def topLevelEntriesAux : List Char → Int → List Char → List (List Char)
  | [], _, acc => [acc.reverse]
  | c :: cs, depth, acc =>
    if c = ',' ∧ depth = 0 then acc.reverse :: topLevelEntriesAux cs depth []
    else if c = '[' then topLevelEntriesAux cs (depth + 1) (c :: acc)
    else if c = ']' then topLevelEntriesAux cs (depth - 1) (c :: acc)
    else topLevelEntriesAux cs depth (c :: acc)

/-- The top-level comma-separated entries of a parameter segment. -/
def topLevelEntries (s : String) : List (List Char) :=
  topLevelEntriesAux s.data 0 []

/-! ## parse_signature and get_parameter_declaration -/

/-- Embedding of `parse_signature` (source lines 124-136).  The Python
tuple unpacking of the split raises `ValueError` unless the split has
exactly two pieces; that exception is the `none` result. -/
def parse_signature (signature : String) : Option (List String × String) :=
  match (pySplit signature " -> ").map pyStrip with
  | [lhs, return_type] =>
    some (split_parameter_types (pyStrip (dropFirstLast lhs)), return_type)
  | _ => none

/-- Embedding of `get_parameter_declaration` (source lines 139-153). -/
def get_parameter_declaration (name type_ : String) (has_default : Bool) : String :=
  if type_ = "" then name
  else if has_default then name ++ ": " ++ type_ ++ " = ..."
  else name ++ ": " ++ type_

/-! ## The stub tree and its renderer -/

/-- One formal parameter of the parsed source: its name and its source
position (`ast.arg` fields used by the renderer). -/
structure Arg where
  arg : String
  lineno : Nat
  col_offset : Nat
deriving DecidableEq

/-- `ast_node.args` as used by the renderer: the positional parameters and
the source positions of the default-value expressions. -/
structure Arguments where
  args : List Arg
  defaults : List (Nat × Nat)
deriving DecidableEq

/-- Lexicographic comparison of (lineno, col_offset) pairs, matching
Python tuple comparison. -/
def pairLe (a b : Nat × Nat) : Bool :=
  a.1 < b.1 || (a.1 = b.1 && a.2 ≤ b.2)

/-- The `bisect.bisect` call of the renderer: on the (source-ordered,
hence sorted) parameter location list it returns the number of locations
that are at most the default's location. -/
def bisectRight (locs : List (Nat × Nat)) (d : Nat × Nat) : Nat :=
  (locs.filter (fun p => pairLe p d)).length

/-- The receiver adjustment of `FunctionStubNode.get_code` (source lines
217-218): a leading parameter named self prepends an empty placeholder
type. -/
def effective_parameter_types (parameters parameter_types : List String) : List String :=
  match parameters with
  | p :: _ => if p = "self" then "" :: parameter_types else parameter_types
  | [] => parameter_types

/-- Embedding of `FunctionStubNode.get_code` (source lines 213-242).
`none` models an unhandled exception: the `ValueError` of
`parse_signature` or the failed length assertion of line 219. -/
def function_stub_code (name signature : String) (args : Arguments) : Option String :=
  match parse_signature signature with
  | none => none
  | some (parameter_types0, return_type) =>
    let parameters := args.args.map Arg.arg
    let parameter_types := effective_parameter_types parameters parameter_types0
    if parameter_types.length = parameters.length then
      let parameter_locations := args.args.map (fun a => (a.lineno, a.col_offset))
      let parameter_defaults : List Int :=
        args.defaults.map (fun d => (bisectRight parameter_locations d : Int) - 1)
      let parameter_stubs := (List.zip parameters parameter_types).enum.map
        (fun ie => get_parameter_declaration ie.2.1 ie.2.2
          (parameter_defaults.contains (ie.1 : Int)))
      let prototype :=
        "def " ++ name ++ "(" ++ pyJoin ", " parameter_stubs ++ ") -> " ++
          return_type ++ ": ...\n"
      if prototype.length > LINE_LENGTH_LIMIT then
        some ("def " ++ name ++ "(\n" ++ MULTILINE_STUB_INDENT ++
          pyJoin (",\n" ++ MULTILINE_STUB_INDENT) parameter_stubs ++
          "\n) -> " ++ return_type ++ ": ...\n")
      else some prototype
    else none

mutual
/-- A node of the stub tree (the StubNode subclasses of the source).  The
module root is represented as a bare `StubForest`. -/
inductive StubTree where
  | classNode (name : String) (signature : Option String) (kids : StubForest)
  | funcNode (name : String) (signature : String) (args : Arguments) (kids : StubForest)
  | varNode (name : String) (type_ : String)
/-- A child list of stub nodes. -/
inductive StubForest where
  | nil
  | cons (t : StubTree) (ts : StubForest)
end

def forestAppend : StubForest → StubForest → StubForest
  | .nil, g => g
  | .cons t ts, g => .cons t (forestAppend ts g)

mutual
/-- Embedding of the `get_code` methods: class nodes wrap their children's
concatenation in a header plus indent (source lines 196-201), function
nodes render their prototype and ignore their children (lines 213-242),
variable nodes render one line (lines 251-252). -/
def StubTree.getCode : StubTree → Option String
  | .classNode name _ kids =>
    match StubForest.getCode kids with
    | some body => some ("class " ++ name ++ ":\n" ++ pyIndent body INDENT)
    | none => none
  | .funcNode name signature args _ => function_stub_code name signature args
  | .varNode name type_ => some (name ++ " = ..." ++ " # type: " ++ type_ ++ "\n")
/-- Embedding of `StubNode.get_code` (source lines 177-185): plain
concatenation of the children's codes, with no separator. -/
def StubForest.getCode : StubForest → Option String
  | .nil => some ""
  | .cons t ts =>
    match StubTree.getCode t, StubForest.getCode ts with
    | some s, some rest => some (s ++ rest)
    | _, _ => none
end

/-! ## The collector (SignatureCollector) -/

/-- An assignment target, as the collector's `visit_Assign` inspects it:
a bare name, an attribute whose value is a name (carried) or not
(`none`, on which the source's `var.value.id` raises), or anything else. -/
inductive Target where
  | nameT (id : String)
  | attrT (valueName : Option String) (attrName : String)
  | otherT
deriving DecidableEq

mutual
/-- The parsed statements the collector's visitor distinguishes.  Class
and function declarations carry the `Option String` that `get_signature`
would extract from their docstring; an assignment carries its raw source
line (`code_lines[lineno - 1]`).  `other` stands for any statement
without its own visitor, into which `generic_visit` descends. -/
inductive Stmt where
  | importFrom (module : String) (names : List String)
  | classDef (name : String) (signature : Option String) (body : StmtList)
  | funcDef (name : String) (signature : Option String) (args : Arguments) (body : StmtList)
  | assign (targets : List Target) (codeLine : String)
  | other (body : StmtList)
inductive StmtList where
  | nil
  | cons (s : Stmt) (ss : StmtList)
end

/-- The current innermost unit (`self.units[-1]`): the module root, a
class node (with its signature, for constructor inheritance), or a
function node. -/
inductive UnitCtx where
  | root
  | cls (signature : Option String)
  | func
deriving DecidableEq

/-- The collector's scalar state: `imported_names` (an ordered
name-to-module mapping), `defined_types` and `required_types` (sets kept
as duplicate-free lists in first-insertion order). -/
structure CState where
  importedNames : List (String × String)
  definedTypes : List String
  requiredTypes : List String
deriving DecidableEq

/-- `OrderedDict` update: an existing key keeps its position and gets the
new value, a new key is appended. -/
def odSet (m : List (String × String)) (k v : String) : List (String × String) :=
  if m.any (fun p => p.1 == k) then
    m.map (fun p => if p.1 = k then (k, v) else p)
  else m ++ [(k, v)]

/-- Set insertion preserving first-occurrence order. -/
def insertNew (l : List String) (x : String) : List String :=
  if x ∈ l then l else l ++ [x]

/-- Registration of a signature's type names (source lines 289-290 and
308-309): every RE_NAMES token that is not a builtin is united into
`required_types`. -/
def addRequired (req : List String) (signature : String) : List String :=
  ((findNames signature).filter (fun n => n ∉ BUILTIN_TYPES)).foldl insertNew req

/-- The variable stub nodes `visit_Assign` creates for the targets of one
annotated assignment (source lines 323-327).  `none` models the
`AttributeError` raised by `var.value.id` when the attribute's value is
not a name. -/
def assignNodes (type_ : String) : List Target → Option StubForest
  | [] => some .nil
  | .nameT id :: rest =>
    match assignNodes type_ rest with
    | some f => some (.cons (.varNode id type_) f)
    | none => none
  | .attrT (some v) a :: rest =>
    if v = "self" then
      match assignNodes type_ rest with
      | some f => some (.cons (.varNode a type_) f)
      | none => none
    else assignNodes type_ rest
  | .attrT none _ :: _ => none
  | .otherT :: rest => assignNodes type_ rest

mutual
/-- Embedding of the visitor methods of `SignatureCollector` (source
lines 281-327).  The result is the updated scalar state plus the stub
children the statement adds to the current unit; `none` is an unhandled
exception.  A function with a resolvable signature pushes itself as the
unit and descends; a function without one neither produces a node nor
descends (lines 307-316). -/
def collectStmt (st : CState) (ctx : UnitCtx) : Stmt → Option (CState × StubForest)
  | .importFrom module names =>
    let m2 := names.foldl (fun m n => odSet m n module) st.importedNames
    some ({ st with importedNames := m2 }, .nil)
  | .classDef name sig body =>
    let st1 := { st with definedTypes := insertNew st.definedTypes name }
    let st2 := match sig with
      | some s => { st1 with requiredTypes := addRequired st1.requiredTypes s }
      | none => st1
    match collectStmts st2 (.cls sig) body with
    | some (st3, kids) => some (st3, .cons (.classNode name sig kids) .nil)
    | none => none
  | .funcDef name sig args body =>
    let signature : Option String := match sig with
      | some s => some s
      | none => match ctx with
        | .cls csig => if name = "__init__" then csig else none
        | _ => none
    match signature with
    | some s =>
      let st2 := { st with requiredTypes := addRequired st.requiredTypes s }
      match collectStmts st2 .func body with
      | some (st3, kids) => some (st3, .cons (.funcNode name s args kids) .nil)
      | none => none
    | none => some (st, .nil)
  | .assign targets codeLine =>
    match pySplit codeLine SIGNATURE_COMMENT with
    | [_] => some (st, .nil)
    | [_, type_] =>
      match assignNodes (pyStrip type_) targets with
      | some kids => some (st, kids)
      | none => none
    | _ => none
  | .other body => collectStmts st ctx body
/-- Sequential visit of a statement list, threading the state and
appending each statement's children to the current unit. -/
def collectStmts (st : CState) (ctx : UnitCtx) : StmtList → Option (CState × StubForest)
  | .nil => some (st, .nil)
  | .cons s ss =>
    match collectStmt st ctx s with
    | some (st1, kids1) =>
      match collectStmts st1 ctx ss with
      | some (st2, kids2) => some (st2, forestAppend kids1 kids2)
      | none => none
    | none => none
end

/-- Building the whole unit: fresh state, module root unit (constructor
plus `traverse` of the source, lines 262-279). -/
def collectModule (body : StmtList) : Option (CState × StubForest) :=
  collectStmts { importedNames := [], definedTypes := [], requiredTypes := [] } .root body

/-! ## SignatureCollector.get_stub -/

/-- `needed_types` after subtracting the locally defined types (source
line 332).  Builtins never enter `required_types`: they are filtered out
at registration (`addRequired`). -/
def neededAfterDefined (st : CState) : List String :=
  st.requiredTypes.filter (fun n => n ∉ st.definedTypes)

/-- The needed types that are explicitly imported (source line 335). -/
def importedTypesOf (st : CState) : List String :=
  (st.importedNames.map Prod.fst).filter (fun n => n ∈ neededAfterDefined st)

def neededAfterImported (st : CState) : List String :=
  (neededAfterDefined st).filter (fun n => n ∉ importedTypesOf st)

/-- The needed types containing a dot (source line 340). -/
def dottedTypesOf (st : CState) : List String :=
  (neededAfterImported st).filter (fun n => hasDot n)

def neededAfterDotted (st : CState) : List String :=
  (neededAfterImported st).filter (fun n => n ∉ dottedTypesOf st)

/-- The needed types found in the typing module (source line 346). -/
def typingTypesOf (st : CState) (typingNames : List String) : List String :=
  (neededAfterDotted st).filter (fun n => n ∈ typingNames)

/-- What is left after all resolution groups are taken out: the set whose
non-emptiness makes the run fail. -/
def unresolvedTypesOf (st : CState) (typingNames : List String) : List String :=
  (neededAfterDotted st).filter (fun n => n ∉ typingTypesOf st typingNames)

/-- Python `'.'.join(n.split('.')[:-1])` (source line 382). -/
def dropLastSegment (n : String) : String :=
  pyJoin "." ((pySplit n ".").dropLast)

/-- The distinct module prefixes of the dotted types (source lines
382-383). -/
def importedModulesOf (st : CState) : List String :=
  ((dottedTypesOf st).map dropLastSegment).dedup

/-- Embedding of `SignatureCollector.get_stub` (source lines 329-391).
The in-place `-=` updates hit `self.required_types` through the alias
`needed_types`, so the returned state carries the leftover set; the
result is `Except.error` for the diagnostic-and-exit path, `Except.ok`
for the assembled stub text, and `none` for an exception while
rendering. -/
def getStubRun (st : CState) (tree : StubForest) (typingNames : List String) :
    Option (Except (List String) String) × CState :=
  let needed := unresolvedTypesOf st typingNames
  let st' := { st with requiredTypes := needed }
  if needed ≠ [] then (some (Except.error needed), st')
  else
    match StubForest.getCode tree with
    | none => (none, st')
    | some body =>
      let typingTypes := typingTypesOf st typingNames
      let importedTypes := importedTypesOf st
      let dottedTypes := dottedTypesOf st
      let s1 := if typingTypes.isEmpty then ""
        else "from typing import " ++ pyJoin ", " (sortStrings typingTypes) ++ "\n"
      let s2 := if importedTypes.isEmpty then ""
        else (if typingTypes.isEmpty then "" else "\n") ++
          String.join (st.importedNames.map (fun p =>
            if p.1 ∈ importedTypes then
              "from " ++ p.2 ++ " import " ++ p.1 ++ "\n"
            else ""))
      let started2 := !typingTypes.isEmpty || !importedTypes.isEmpty
      let s3 := if dottedTypes.isEmpty then ""
        else (if started2 then "\n" else "") ++
          String.join ((sortStrings (importedModulesOf st)).map
            (fun m => "import " ++ m ++ "\n"))
      let started3 := started2 || !dottedTypes.isEmpty
      let s4 := if started3 then "\n\n" else ""
      (some (Except.ok (s1 ++ (s2 ++ (s3 ++ (s4 ++ body))))), st')

/-- Embedding of the module-level `get_stub` (source lines 394-403): one
collection pass followed by one call of the collector's `get_stub`. -/
def get_stub (body : StmtList) (typingNames : List String) :
    Option (Except (List String) String) :=
  match collectModule body with
  | some (st, tree) => (getStubRun st tree typingNames).1
  | none => none

/-! ## Specification-side assembly (written from the spec's words, for the
refinement claim about the final output layout) -/

/-- The generic-extension import line: one line, names sorted. -/
def typingLineOf (st : CState) (tn : List String) : String :=
  "from typing import " ++ pyJoin ", " (sortStrings (typingTypesOf st tn)) ++ "\n"

/-- The explicit-import lines: one per name, in first-occurrence source
order, each paired with its originating module. -/
def explicitLinesOf (st : CState) : String :=
  String.join (st.importedNames.map (fun p =>
    if p.1 ∈ importedTypesOf st then
      "from " ++ p.2 ++ " import " ++ p.1 ++ "\n"
    else ""))

/-- The dotted-module import lines: one per distinct derived prefix,
sorted. -/
def dottedLinesOf (st : CState) : String :=
  String.join ((sortStrings (importedModulesOf st)).map
    (fun m => "import " ++ m ++ "\n"))

/-- The groups that are present (non-empty), in the order the spec
prescribes. -/
def presentGroups (st : CState) (tn : List String) : List String :=
  [if (typingTypesOf st tn).isEmpty then none else some (typingLineOf st tn),
   if (importedTypesOf st).isEmpty then none else some (explicitLinesOf st),
   if (dottedTypesOf st).isEmpty then none else some (dottedLinesOf st)].reduceOption

/-- Joining the present groups with exactly one blank line between any
two of them (each group already ends in a newline, so one extra newline
is one blank line). -/
def joinGroups : List String → String
  | [] => ""
  | [g] => g
  | g :: gs => g ++ "\n" ++ joinGroups gs

/-- The spec's final unit assembly: the present import groups, one blank
line between any two of them, then two blank lines, then the body; if no
group is present the body starts immediately. -/
def specAssembly (st : CState) (tn : List String) (body : String) : String :=
  joinGroups (presentGroups st tn) ++
    (if (presentGroups st tn).isEmpty then "" else "\n\n") ++ body

/-! ## Helper lemmas -/

theorem strAppend_assoc : ∀ (a b c : String), (a ++ b) ++ c = a ++ (b ++ c)
  | ⟨a⟩, ⟨b⟩, ⟨c⟩ => congrArg String.mk (List.append_assoc a b c)

theorem strAppend_empty : ∀ (s : String), s ++ "" = s
  | ⟨s⟩ => congrArg String.mk (List.append_nil s)

theorem strEmpty_append : ∀ (s : String), "" ++ s = s
  | ⟨_⟩ => rfl

theorem newline_merge1 (x : String) : "\n" ++ ("\n" ++ x) = "\n\n" ++ x := by
  rw [← strAppend_assoc]
  have h : ("\n" ++ "\n" : String) = "\n\n" := by decide
  rw [h]

theorem newline_merge2 (x : String) : "\n" ++ ("\n\n" ++ x) = "\n\n\n" ++ x := by
  rw [← strAppend_assoc]
  have h : ("\n" ++ "\n\n" : String) = "\n\n\n" := by decide
  rw [h]

theorem charListLe_total : ∀ (a b : List Char),
    charListLe a b = true ∨ charListLe b a = true := by
  intro a
  induction a with
  | nil => intro b; left; rfl
  | cons x xs ih =>
    intro b
    cases b with
    | nil => right; rfl
    | cons y ys =>
      rcases lt_trichotomy x y with hlt | heq | hgt
      · left; simp [charListLe, hlt]
      · subst heq
        rcases ih ys with h | h
        · left; simpa [charListLe, lt_irrefl] using h
        · right; simpa [charListLe, lt_irrefl] using h
      · right; simp [charListLe, hgt]

theorem charListLe_trans : ∀ (a b c : List Char),
    charListLe a b = true → charListLe b c = true → charListLe a c = true := by
  intro a
  induction a with
  | nil => intro b c _ _; rfl
  | cons x xs ih =>
    intro b c hab hbc
    cases b with
    | nil => simp [charListLe] at hab
    | cons y ys =>
      cases c with
      | nil => simp [charListLe] at hbc
      | cons z zs =>
        by_cases hxy : x < y
        · by_cases hyz : y < z
          · simp [charListLe, lt_trans hxy hyz]
          · by_cases hzy : z < y
            · simp [charListLe, hyz, hzy] at hbc
            · have hyzeq : y = z := le_antisymm (not_lt.1 hzy) (not_lt.1 hyz)
              subst hyzeq
              simp [charListLe, hxy]
        · by_cases hyx : y < x
          · simp [charListLe, hxy, hyx] at hab
          · have hxyeq : x = y := le_antisymm (not_lt.1 hyx) (not_lt.1 hxy)
            subst hxyeq
            simp only [charListLe, if_neg (lt_irrefl x)] at hab
            by_cases hxz : x < z
            · simp [charListLe, hxz]
            · by_cases hzx : z < x
              · simp [charListLe, hxz, hzx] at hbc
              · have hxzeq : x = z := le_antisymm (not_lt.1 hzx) (not_lt.1 hxz)
                subst hxzeq
                simp only [charListLe, if_neg (lt_irrefl x)] at hbc ⊢
                exact ih ys zs hab hbc

instance : IsTotal String strLeP :=
  ⟨fun a b => charListLe_total a.data b.data⟩

instance : IsTrans String strLeP :=
  ⟨fun a b c => charListLe_trans a.data b.data c.data⟩

theorem mem_insertNew {l : List String} {x n : String}
    (h : n ∈ insertNew l x) : n ∈ l ∨ n = x := by
  unfold insertNew at h
  split at h
  · exact Or.inl h
  · rcases List.mem_append.1 h with h | h
    · exact Or.inl h
    · exact Or.inr (List.mem_singleton.1 h)

theorem mem_foldl_insertNew : ∀ (l req : List String) (n : String),
    n ∈ l.foldl insertNew req → n ∈ req ∨ n ∈ l := by
  intro l
  induction l with
  | nil => intro req n h; exact Or.inl h
  | cons x xs ih =>
    intro req n h
    rcases ih (insertNew req x) n h with h2 | h2
    · rcases mem_insertNew h2 with h3 | h3
      · exact Or.inl h3
      · exact Or.inr (by simp [h3])
    · exact Or.inr (List.mem_cons_of_mem _ h2)

/-! ## Claims -/

/-- C1: if, after dropping builtins (filtered at registration), locally
defined names, explicitly imported names, dotted names and typing names,
the unresolved set is non-empty, the run fails fatally: the single
diagnostic carries the full unresolved set (`Except.error`, standing for
the stderr print plus `sys.exit(1)`), and no stub text is produced. -/
theorem c1_unresolved_names_abort (st : CState) (tree : StubForest) (tn : List String)
    (h : unresolvedTypesOf st tn ≠ []) :
    (getStubRun st tree tn).1 = some (Except.error (unresolvedTypesOf st tn)) ∧
    (∀ req s n, n ∈ addRequired req s → n ∈ req ∨ n ∉ BUILTIN_TYPES) := by
  constructor
  · simp only [getStubRun]
    rw [if_pos h]
  · intro req s n hn
    rcases mem_foldl_insertNew _ _ _ hn with h2 | h2
    · exact Or.inl h2
    · right
      have := List.mem_filter.1 h2
      simpa using this.2

/-- Witness for C1: a concrete state with one leftover name aborts with
that name as the diagnostic. -/
theorem c1_witness :
    unresolvedTypesOf ⟨[], [], ["Foo"]⟩ [] ≠ [] ∧
    (getStubRun ⟨[], [], ["Foo"]⟩ StubForest.nil []).1 =
      some (Except.error (unresolvedTypesOf ⟨[], [], ["Foo"]⟩ [])) :=
  ⟨by decide, (c1_unresolved_names_abort ⟨[], [], ["Foo"]⟩ StubForest.nil [] (by decide)).1⟩

/-- C10 (also the omission half of C3): a function declaration whose
signature does not resolve (no own signature, and the constructor
borrowing rule does not apply) is skipped without descending: whatever
its body contains, no stub child is produced and the collector state —
including the registered required types — is unchanged. -/
theorem c10_unsigned_function_skipped (st : CState) (ctx : UnitCtx) (name : String)
    (args : Arguments) (body : StmtList)
    (h : ¬ (name = "__init__" ∧ ∃ s, ctx = UnitCtx.cls (some s))) :
    collectStmt st ctx (.funcDef name none args body) = some (st, .nil) := by
  cases ctx with
  | root => simp [collectStmt]
  | func => simp [collectStmt]
  | cls csig =>
    by_cases hn : name = "__init__"
    · cases csig with
      | none => simp [collectStmt, hn]
      | some s => exact absurd ⟨hn, s, rfl⟩ h
    · simp [collectStmt, hn]

/-- Witness for C10: a signatureless helper method (not a constructor)
with an annotated nested function is dropped whole: no child, no state
change. -/
theorem c10_witness :
    collectStmt ⟨[], [], []⟩ (UnitCtx.cls (some "(int) -> None")) (.funcDef "helper" none ⟨[], []⟩
      (.cons (.funcDef "inner" (some "(Hidden) -> None") ⟨[], []⟩ .nil) .nil)) =
      some (⟨[], [], []⟩, .nil) :=
  c10_unsigned_function_skipped ⟨[], [], []⟩ (UnitCtx.cls (some "(int) -> None")) "helper" ⟨[], []⟩
    (.cons (.funcDef "inner" (some "(Hidden) -> None") ⟨[], []⟩ .nil) .nil)
    (by intro hc; rcases hc with ⟨hne, _, _⟩; exact absurd hne (by decide))

/-- C8 counterexample: a signature whose parenthesized parameter segment
is unbalanced is parsed without any failure — the code strips the first
and last characters of the left side unconditionally, so the claim that
an unbalanced segment fails is false. -/
theorem c8_counterexample :
    parse_signature "(int -> str" = some (["in"], "str") := rfl

/-- C8 (amended): parsing fails exactly when the arrow separator does not
occur exactly once in the signature (absent or repeated); no balance
check is performed on the parameter segment. -/
theorem c8_parse_failure_iff (s : String) :
    parse_signature s = none ↔ (pySplit s " -> ").length ≠ 2 := by
  unfold parse_signature
  rcases h : pySplit s " -> " with _ | ⟨a, _ | ⟨b, _ | ⟨c, t⟩⟩⟩ <;> simp [h]

/-- C5 counterexample: a class with no signature and no children is kept
in its parent's child list and rendered, so the output consists of a
childless class block — contradicting the claim that childless class
nodes are pruned and never appear. -/
theorem c5_counterexample :
    collectModule (.cons (.classDef "Foo" none .nil) .nil) =
      some (⟨[], ["Foo"], []⟩, .cons (.classNode "Foo" none .nil) .nil) ∧
    get_stub (.cons (.classDef "Foo" none .nil) .nil) [] =
      some (Except.ok "class Foo:\n") :=
  ⟨rfl, rfl⟩

/-- C5 (amended): no pruning is performed anywhere — a class declaration
always contributes its class node to the parent's child list even when
the node has no children, and a childless class node renders as a bare
header line with an empty body. -/
theorem c5_class_nodes_never_pruned (st : CState) (ctx : UnitCtx) (name : String)
    (sig : Option String) :
    collectStmt st ctx (.classDef name sig .nil) =
      some (⟨st.importedNames, insertNew st.definedTypes name,
            match sig with
            | some s => addRequired st.requiredTypes s
            | none => st.requiredTypes⟩,
        .cons (.classNode name sig .nil) .nil) ∧
    StubTree.getCode (.classNode name sig .nil) = some ("class " ++ name ++ ":\n") := by
  constructor
  · cases sig <;> rfl
  · show (match StubForest.getCode .nil with
      | some body => some ("class " ++ name ++ ":\n" ++ pyIndent body INDENT)
      | none => none) = _
    show some ("class " ++ name ++ ":\n" ++ pyIndent "" INDENT) = _
    rw [show pyIndent "" INDENT = "" from rfl, strAppend_empty]

/-- C3: a function declaration yields a function stub node exactly when a
signature resolves: its own signature always does; a constructor-named
function without its own signature borrows the signature of its
immediately enclosing class when that class has one; in every other case
(including non-constructor methods, which never borrow) nothing is
produced and nothing is registered. -/
theorem c3_funcdef_signature_resolution (st : CState) (ctx : UnitCtx) (name : String)
    (sig : Option String) (args : Arguments) (body : StmtList) (st' : CState)
    (kids : StubForest)
    (h : collectStmt st ctx (.funcDef name sig args body) = some (st', kids)) :
    (∀ s, sig = some s → ∃ cs, kids = .cons (.funcNode name s args cs) .nil) ∧
    (∀ csig, sig = none → ctx = UnitCtx.cls (some csig) → name = "__init__" →
      ∃ cs, kids = .cons (.funcNode name csig args cs) .nil) ∧
    (sig = none → ¬ (name = "__init__" ∧ ∃ s, ctx = UnitCtx.cls (some s)) →
      st' = st ∧ kids = .nil) ∧
    (kids ≠ .nil → sig ≠ none ∨ (name = "__init__" ∧ ∃ s, ctx = UnitCtx.cls (some s))) := by
  cases sig with
  | some s =>
    simp only [collectStmt] at h
    rcases hc : collectStmts { st with requiredTypes := addRequired st.requiredTypes s }
        .func body with _ | ⟨st3, k⟩
    · rw [hc] at h; exact absurd h (by simp)
    · rw [hc] at h
      have hk : kids = .cons (.funcNode name s args k) .nil :=
        (Prod.ext_iff.1 (Option.some.inj h)).2.symm
      refine ⟨fun s' hs' => ?_, fun csig hn => absurd hn (by simp), fun hn => absurd hn (by simp),
        fun _ => Or.inl (by simp)⟩
      rw [Option.some.inj hs'] at hk
      exact ⟨k, hk⟩
  | none =>
    cases ctx with
    | root =>
      simp only [collectStmt] at h
      have hst : st' = st := (Prod.ext_iff.1 (Option.some.inj h)).1.symm
      have hk : kids = .nil := (Prod.ext_iff.1 (Option.some.inj h)).2.symm
      exact ⟨fun s hs => absurd hs (by simp), fun csig _ hctx => absurd hctx (by simp),
        fun _ _ => ⟨hst, hk⟩, fun hne => absurd hk hne⟩
    | func =>
      simp only [collectStmt] at h
      have hst : st' = st := (Prod.ext_iff.1 (Option.some.inj h)).1.symm
      have hk : kids = .nil := (Prod.ext_iff.1 (Option.some.inj h)).2.symm
      exact ⟨fun s hs => absurd hs (by simp), fun csig _ hctx => absurd hctx (by simp),
        fun _ _ => ⟨hst, hk⟩, fun hne => absurd hk hne⟩
    | cls csig =>
      by_cases hn : name = "__init__"
      · subst hn
        cases csig with
        | none =>
          simp only [collectStmt, if_pos] at h
          have hst : st' = st := (Prod.ext_iff.1 (Option.some.inj h)).1.symm
          have hk : kids = .nil := (Prod.ext_iff.1 (Option.some.inj h)).2.symm
          refine ⟨fun s hs => absurd hs (by simp), fun csig' _ hctx => ?_,
            fun _ _ => ⟨hst, hk⟩, fun hne => absurd hk hne⟩
          exact absurd (UnitCtx.cls.inj hctx) (by simp)
        | some cs0 =>
          simp only [collectStmt, if_pos] at h
          rcases hc : collectStmts { st with requiredTypes := addRequired st.requiredTypes cs0 }
              .func body with _ | ⟨st3, k⟩
          · rw [hc] at h; exact absurd h (by simp)
          · rw [hc] at h
            have hk : kids = .cons (.funcNode "__init__" cs0 args k) .nil :=
              (Prod.ext_iff.1 (Option.some.inj h)).2.symm
            refine ⟨fun s hs => absurd hs (by simp), fun csig' _ hctx _ => ?_,
              fun _ hno => absurd ⟨rfl, cs0, rfl⟩ hno,
              fun _ => Or.inr ⟨rfl, cs0, rfl⟩⟩
            have : some cs0 = some csig' := UnitCtx.cls.inj hctx
            rw [← Option.some.inj this]
            exact ⟨k, hk⟩
      · simp only [collectStmt, hn, if_neg, if_false] at h
        have hst : st' = st := (Prod.ext_iff.1 (Option.some.inj h)).1.symm
        have hk : kids = .nil := (Prod.ext_iff.1 (Option.some.inj h)).2.symm
        exact ⟨fun s hs => absurd hs (by simp), fun csig' _ _ hname => absurd hname hn,
          fun _ _ => ⟨hst, hk⟩, fun hne => absurd hk hne⟩

/-- Witness for C3: an annotated constructor-less class with a bare
constructor produces the constructor's stub node from the class
signature. -/
theorem c3_witness :
    ∃ cs, StubForest.cons (StubTree.funcNode "__init__" "(int) -> None" ⟨[], []⟩ .nil) .nil =
      .cons (.funcNode "__init__" "(int) -> None" (⟨[], []⟩ : Arguments) cs) .nil :=
  (c3_funcdef_signature_resolution ⟨[], [], []⟩ (UnitCtx.cls (some "(int) -> None")) "__init__"
      none ⟨[], []⟩ .nil ⟨[], [], []⟩
      (.cons (.funcNode "__init__" "(int) -> None" ⟨[], []⟩ .nil) .nil)
      rfl).2.1 "(int) -> None" rfl rfl rfl

/-- C4: in a successfully rendered function stub, the empty placeholder
type sits at the head of the effective parameter-type list exactly when
the first declared parameter is the receiver name and the declared
type list is one element short of the parameter count; a parameter paired
with the empty type renders as its bare name. -/
theorem c4_receiver_placeholder (name signature : String) (args : Arguments) (out : String)
    (pt : List String) (rt : String)
    (hrun : function_stub_code name signature args = some out)
    (hparse : parse_signature signature = some (pt, rt)) :
    (effective_parameter_types (args.args.map Arg.arg) pt = "" :: pt ↔
      ((args.args.map Arg.arg).head? = some "self" ∧
        (args.args.map Arg.arg).length = pt.length + 1)) ∧
    (∀ n d, get_parameter_declaration n "" d = n) := by
  refine ⟨?_, fun n d => by simp [get_parameter_declaration]⟩
  unfold function_stub_code at hrun
  rw [hparse] at hrun
  simp only at hrun
  by_cases hlen : (effective_parameter_types (args.args.map Arg.arg) pt).length =
      (args.args.map Arg.arg).length
  · rcases hp : args.args.map Arg.arg with _ | ⟨p, ps⟩
    · rw [hp] at hlen
      have heff : effective_parameter_types [] pt = pt := rfl
      rw [heff] at hlen ⊢
      constructor
      · intro habs
        have := congrArg List.length habs
        simp at this
      · rintro ⟨hhd, _⟩
        simp at hhd
    · rw [hp] at hlen
      by_cases hself : p = "self"
      · subst hself
        have heff : effective_parameter_types ("self" :: ps) pt = "" :: pt := by
          simp [effective_parameter_types]
        rw [heff] at hlen ⊢
        simp only [List.length_cons] at hlen
        constructor
        · intro _
          exact ⟨rfl, by simp only [List.length_cons]; omega⟩
        · intro _
          rfl
      · have heff : effective_parameter_types (p :: ps) pt = pt := by
          simp [effective_parameter_types, hself]
        rw [heff] at hlen ⊢
        constructor
        · intro habs
          have := congrArg List.length habs
          simp at this
        · rintro ⟨hhd, _⟩
          exact absurd (Option.some.inj hhd) hself
  · rw [if_neg hlen] at hrun
    exact Option.noConfusion hrun

/-- Witness for C4: a method with receiver plus one typed parameter gets
the placeholder inserted and renders the receiver bare. -/
theorem c4_witness :
    (effective_parameter_types ((⟨[⟨"self", 1, 0⟩, ⟨"a", 1, 10⟩], []⟩ : Arguments).args.map
        Arg.arg) ["int"] = "" :: ["int"] ↔
      (((⟨[⟨"self", 1, 0⟩, ⟨"a", 1, 10⟩], []⟩ : Arguments).args.map Arg.arg).head? =
          some "self" ∧
        ((⟨[⟨"self", 1, 0⟩, ⟨"a", 1, 10⟩], []⟩ : Arguments).args.map Arg.arg).length =
          (["int"] : List String).length + 1)) ∧
    (∀ n d, get_parameter_declaration n "" d = n) :=
  c4_receiver_placeholder "m" "(int) -> None" ⟨[⟨"self", 1, 0⟩, ⟨"a", 1, 10⟩], []⟩
    "def m(self, a: int) -> None: ...\n" ["int"] "None" rfl rfl

/-- C6 counterexample: two sibling module-scope functions are rendered
with no separating blank line at all (the output contains no two
consecutive newline characters), contradicting the claimed two blank
lines between module-scope siblings. -/
theorem c6_counterexample :
    get_stub (.cons (.funcDef "f" (some "() -> None") ⟨[], []⟩ .nil)
        (.cons (.funcDef "g" (some "() -> None") ⟨[], []⟩ .nil) .nil)) [] =
      some (Except.ok "def f() -> None: ...\ndef g() -> None: ...\n") ∧
    ¬ ('\n' :: '\n' :: [] <:+:
        ("def f() -> None: ...\ndef g() -> None: ...\n").data) :=
  ⟨rfl, by decide⟩

/-- C6 (amended): sibling blocks are concatenated with no blank line
between them at any scope; a class's body is indented one unit (the
four-space INDENT) deeper than its declaration line. -/
theorem c6_concatenation_and_indent :
    (∀ (a b : StubTree) (sa sb : String), StubTree.getCode a = some sa →
      StubTree.getCode b = some sb →
      StubForest.getCode (.cons a (.cons b .nil)) = some (sa ++ sb)) ∧
    (∀ (name : String) (sig : Option String) (kids : StubForest) (body : String),
      StubForest.getCode kids = some body →
      StubTree.getCode (.classNode name sig kids) =
        some ("class " ++ name ++ ":\n" ++ pyIndent body INDENT)) := by
  constructor
  · intro a b sa sb ha hb
    show (match StubTree.getCode a, StubForest.getCode (.cons b .nil) with
      | some s, some rest => some (s ++ rest)
      | _, _ => none) = _
    have hb1 : StubForest.getCode (.cons b .nil) = some (sb ++ "") := by
      show (match StubTree.getCode b, StubForest.getCode .nil with
        | some s, some rest => some (s ++ rest)
        | _, _ => none) = _
      rw [hb]
      rfl
    rw [ha, hb1, strAppend_empty]
  · intro name sig kids body hk
    show (match StubForest.getCode kids with
      | some body => some ("class " ++ name ++ ":\n" ++ pyIndent body INDENT)
      | none => none) = _
    rw [hk]

/-- Witness for C6 (amended): two variable stubs concatenate directly and
a one-variable class body is indented four spaces. -/
theorem c6_witness :
    StubForest.getCode (.cons (.varNode "x" "int") (.cons (.varNode "y" "str") .nil)) =
      some "x = ... # type: int\ny = ... # type: str\n" ∧
    StubTree.getCode (.classNode "C" none (.cons (.varNode "x" "int") .nil)) =
      some "class C:\n    x = ... # type: int\n" :=
  ⟨c6_concatenation_and_indent.1 (.varNode "x" "int") (.varNode "y" "str") _ _ rfl rfl,
   c6_concatenation_and_indent.2 "C" none (.cons (.varNode "x" "int") .nil)
     "x = ... # type: int\n" rfl⟩

/-- The index-based slicing of the source coincides with direct splitting
at depth-zero commas: the invariant is that the current entry started at
index `last` of `full`, the reversed accumulator holds what was consumed
since, and `cs` is the unscanned remainder. -/
theorem segments_eq_entries : ∀ (cs : List Char) (depth : Int) (acc : List Char)
    (last : Nat) (full : List Char), full.drop last = acc.reverse ++ cs →
    segmentsAux full (topCommasAux cs (last + acc.length) depth) last =
      (topLevelEntriesAux cs depth acc).map (fun e => pyStrip e.asString) := by
  intro cs
  induction cs with
  | nil =>
    intro depth acc last full h
    simp only [topCommasAux, topLevelEntriesAux, segmentsAux, List.map]
    rw [h, List.append_nil]
  | cons c cs ih =>
    intro depth acc last full h
    have hstep : ∀ d' : Int,
        segmentsAux full (topCommasAux cs (last + acc.length + 1) d') last =
          (topLevelEntriesAux cs d' (c :: acc)).map (fun e => pyStrip e.asString) := by
      intro d'
      have e1 : last + acc.length + 1 = last + (c :: acc).length := by
        simp [Nat.add_assoc]
      rw [e1]
      apply ih
      rw [List.reverse_cons, List.append_assoc]
      exact h
    have hdrop : full.drop (last + acc.length + 1) = cs := by
      rw [Nat.add_assoc, ← List.drop_drop, h]
      have e2 : acc.reverse ++ c :: cs = (acc.reverse ++ [c]) ++ cs := by simp
      rw [e2]
      have e3 : acc.length + 1 = (acc.reverse ++ [c]).length := by simp
      rw [e3, List.drop_left]
    simp only [topCommasAux, topLevelEntriesAux]
    by_cases h1 : c = ',' ∧ depth = 0
    · rw [if_pos h1, if_pos h1]
      simp only [segmentsAux, List.map]
      have htail := ih depth [] (last + acc.length + 1) full (by simpa using hdrop)
      simp only [List.length_nil, Nat.add_zero] at htail
      rw [htail, Nat.add_sub_cancel_left, h, ← List.length_reverse acc, List.take_left]
    · rw [if_neg h1, if_neg h1]
      by_cases h2 : c = '['
      · rw [if_pos h2, if_pos h2]
        exact hstep (depth + 1)
      · rw [if_neg h2, if_neg h2]
        by_cases h3 : c = ']'
        · rw [if_pos h3, if_pos h3]
          exact hstep (depth - 1)
        · rw [if_neg h3, if_neg h3]
          exact hstep depth

/-- C2: a non-empty parameter segment splits into exactly one token per
top-level comma-separated entry (commas nested inside square brackets are
never split points), each token being the whitespace-stripped entry; the
empty segment yields the empty list, not a one-element list. -/
theorem c2_split_tokens (s : String) (h : s ≠ "") :
    split_parameter_types s = (topLevelEntries s).map (fun e => pyStrip e.asString) ∧
    (split_parameter_types s).length = (topLevelEntries s).length ∧
    split_parameter_types "" = [] := by
  have key := segments_eq_entries s.data 0 [] 0 s.data (by simp)
  have hmain : split_parameter_types s =
      (topLevelEntries s).map (fun e => pyStrip e.asString) := by
    unfold split_parameter_types topLevelEntries
    rw [if_neg h]
    simpa using key
  exact ⟨hmain, by rw [hmain, List.length_map], rfl⟩

/-- Witness for C2: a segment with a bracket-nested comma splits into its
two top-level entries, stripped. -/
theorem c2_witness :
    ("List[int, str] , bool" : String) ≠ "" ∧
    split_parameter_types "List[int, str] , bool" =
      (topLevelEntries "List[int, str] , bool").map (fun e => pyStrip e.asString) ∧
    (split_parameter_types "List[int, str] , bool").length =
      (topLevelEntries "List[int, str] , bool").length :=
  ⟨by decide, (c2_split_tokens "List[int, str] , bool" (by decide)).1,
    (c2_split_tokens "List[int, str] , bool" (by decide)).2.1⟩

/-- C9 counterexample: rendering the same built unit twice is not
byte-identical.  The alias `needed_types = self.required_types` makes the
in-place set subtractions empty the collector's required-type set during
the first `get_stub` call, so the second call emits no import lines. -/
theorem c9_counterexample :
    collectModule (.cons (.importFrom "m" ["X"])
        (.cons (.funcDef "f" (some "(X) -> None") ⟨[⟨"x", 1, 6⟩], []⟩ .nil) .nil)) =
      some (⟨[("X", "m")], [], ["X"]⟩,
        .cons (.funcNode "f" "(X) -> None" ⟨[⟨"x", 1, 6⟩], []⟩ .nil) .nil) ∧
    (getStubRun ⟨[("X", "m")], [], ["X"]⟩
        (.cons (.funcNode "f" "(X) -> None" ⟨[⟨"x", 1, 6⟩], []⟩ .nil) .nil) []).1 =
      some (Except.ok "from m import X\n\n\ndef f(x: X) -> None: ...\n") ∧
    (getStubRun (getStubRun ⟨[("X", "m")], [], ["X"]⟩
        (.cons (.funcNode "f" "(X) -> None" ⟨[⟨"x", 1, 6⟩], []⟩ .nil) .nil) []).2
        (.cons (.funcNode "f" "(X) -> None" ⟨[⟨"x", 1, 6⟩], []⟩ .nil) .nil) []).1 =
      some (Except.ok "def f(x: X) -> None: ...\n") ∧
    ("from m import X\n\n\ndef f(x: X) -> None: ...\n" : String) ≠
      "def f(x: X) -> None: ...\n" :=
  ⟨rfl, rfl, rfl, by decide⟩

/-- C9 (amended): only the tree-body rendering is idempotent.  A first
successful `get_stub` call consumes the required-type set in place, so a
second call on the resulting state renders exactly the bare tree body,
with every import group dropped; the two renderings coincide only when
the first one had no import lines. -/
theorem c9_second_render_is_bare_body (st : CState) (tree : StubForest) (tn : List String)
    (out : String) (stAfter : CState)
    (h : getStubRun st tree tn = (some (Except.ok out), stAfter)) :
    ∃ body, StubForest.getCode tree = some body ∧
      (getStubRun stAfter tree tn).1 = some (Except.ok body) := by
  by_cases hu : unresolvedTypesOf st tn = []
  · rcases hb : StubForest.getCode tree with _ | body
    · have h1 := congrArg Prod.fst h
      simp only [getStubRun] at h1
      rw [if_neg (not_not_intro hu), hb] at h1
      simp at h1
    · refine ⟨body, rfl, ?_⟩
      have hst : stAfter = { st with requiredTypes := unresolvedTypesOf st tn } := by
        have h2 := congrArg Prod.snd h
        simp only [getStubRun] at h2
        rw [if_neg (not_not_intro hu), hb] at h2
        exact h2.symm
      rw [hst, hu]
      simp [getStubRun, unresolvedTypesOf, neededAfterDotted, neededAfterImported,
        neededAfterDefined, dottedTypesOf, importedTypesOf, typingTypesOf, hb,
        strEmpty_append]
  · have h1 := congrArg Prod.fst h
    simp only [getStubRun] at h1
    rw [if_pos hu] at h1
    simp at h1

/-- Witness for C9 (amended): after a first run that did emit an import
line, the second run returns just the (here empty) body. -/
theorem c9_witness :
    ∃ body, StubForest.getCode StubForest.nil = some body ∧
      (getStubRun ⟨[("Y", "m2")], [], []⟩ StubForest.nil []).1 =
        some (Except.ok body) :=
  c9_second_render_is_bare_body ⟨[("Y", "m2")], [], ["Y"]⟩ StubForest.nil []
    "from m2 import Y\n\n\n" ⟨[("Y", "m2")], [], []⟩ rfl

/-- C7: a successful run's output is exactly the spec's assembly — the
present import groups in the order typing line (sorted names), explicit
per-name lines (first-occurrence order, each with its module), dotted
module lines (distinct prefixes, sorted), one blank line between present
groups, none before a missing group, then two blank lines and the tree
body, the body starting immediately when no group is present — and the
typing names and dotted module prefixes are sorted duplicate-free
rearrangements of the respective sets. -/
theorem c7_assembly_order (st : CState) (tree : StubForest) (tn : List String)
    (out : String) (stAfter : CState)
    (h : getStubRun st tree tn = (some (Except.ok out), stAfter)) :
    (∃ body, StubForest.getCode tree = some body ∧ out = specAssembly st tn body) ∧
    List.Sorted strLeP (sortStrings (typingTypesOf st tn)) ∧
    (sortStrings (typingTypesOf st tn)).Perm (typingTypesOf st tn) ∧
    List.Sorted strLeP (sortStrings (importedModulesOf st)) ∧
    (sortStrings (importedModulesOf st)).Perm (importedModulesOf st) ∧
    (sortStrings (importedModulesOf st)).Nodup := by
  refine ⟨?_, List.sorted_insertionSort _ _, List.perm_insertionSort _ _,
    List.sorted_insertionSort _ _, List.perm_insertionSort _ _,
    ((List.perm_insertionSort strLeP _).symm).nodup (List.nodup_dedup _)⟩
  by_cases hu : unresolvedTypesOf st tn = []
  · rcases hb : StubForest.getCode tree with _ | body
    · have h1 := congrArg Prod.fst h
      simp only [getStubRun] at h1
      rw [if_neg (not_not_intro hu), hb] at h1
      simp at h1
    · refine ⟨body, rfl, ?_⟩
      have h1 := congrArg Prod.fst h
      simp only [getStubRun] at h1
      rw [if_neg (not_not_intro hu), hb] at h1
      have hout : out = _ := (Except.ok.inj (Option.some.inj h1)).symm
      rw [hout]
      cases ht : (typingTypesOf st tn).isEmpty <;>
        cases hi : (importedTypesOf st).isEmpty <;>
          cases hd : (dottedTypesOf st).isEmpty <;>
            simp [specAssembly, presentGroups, typingLineOf, explicitLinesOf,
              dottedLinesOf, joinGroups, ht, hi, hd, strAppend_assoc,
              strEmpty_append, strAppend_empty, newline_merge1, newline_merge2]
  · have h1 := congrArg Prod.fst h
    simp only [getStubRun] at h1
    rw [if_pos hu] at h1
    simp at h1

/-- Witness for C7: a state with one typing name, one explicit import and
one dotted name assembles all three groups in order with single blank
lines, then two blank lines, then the (empty) body. -/
theorem c7_witness :
    (∃ body, StubForest.getCode StubForest.nil = some body ∧
      "from typing import T\n\nfrom emod import E\n\nimport a.b\n\n\n" =
        specAssembly ⟨[("E", "emod")], [], ["T", "E", "a.b.C"]⟩ ["T"] body) ∧
    List.Sorted strLeP (sortStrings (typingTypesOf ⟨[("E", "emod")], [], ["T", "E", "a.b.C"]⟩ ["T"])) ∧
    (sortStrings (typingTypesOf ⟨[("E", "emod")], [], ["T", "E", "a.b.C"]⟩ ["T"])).Perm
      (typingTypesOf ⟨[("E", "emod")], [], ["T", "E", "a.b.C"]⟩ ["T"]) ∧
    List.Sorted strLeP (sortStrings (importedModulesOf ⟨[("E", "emod")], [], ["T", "E", "a.b.C"]⟩)) ∧
    (sortStrings (importedModulesOf ⟨[("E", "emod")], [], ["T", "E", "a.b.C"]⟩)).Perm
      (importedModulesOf ⟨[("E", "emod")], [], ["T", "E", "a.b.C"]⟩) ∧
    (sortStrings (importedModulesOf ⟨[("E", "emod")], [], ["T", "E", "a.b.C"]⟩)).Nodup :=
  c7_assembly_order ⟨[("E", "emod")], [], ["T", "E", "a.b.C"]⟩ StubForest.nil ["T"]
    "from typing import T\n\nfrom emod import E\n\nimport a.b\n\n\n"
    ⟨[("E", "emod")], [], []⟩ rfl

end Pygenstub
